import Mathlib

/-!
Verification of the automl_zero utility core (util.h and the definitions
exercised by definitions_test.cc): fail-fast invariant guards, the generic
safe integer cast, the state-mixing function, the power-of-two helper and
the approximate vector comparator.

Modelling conventions:
* Fatal termination via the Fatal Reporter is modelled by `Except String`:
  `Except.error msg` stands for "the process aborts after printing `msg`";
  `Except.ok v` stands for a normal return of `v`.
* C++ fixed-width integers are modelled by `ℤ` together with an explicit
  `IntType` record carrying the width and signedness, and `inRange`
  expressing representability.
* `double` values are modelled as exact rationals (`ℚ`); the Euclidean
  norm of the vector comparator is taken in `ℝ` via `Real.sqrt`.
* C++ pointers are modelled as `Option ℕ` (a possibly-null address), and
  the pointer call shapes of the container guards read the pointee through
  an explicit heap `ℕ → List α`.
-/

/-- A fixed-width C++ integer type: bit width and signedness. -/
structure IntType where
  bits : ℕ
  signed : Bool
deriving DecidableEq

/-- Smallest representable mathematical value of the type. -/
def IntType.minVal (t : IntType) : ℤ :=
  if t.signed then -(2 ^ (t.bits - 1)) else 0

/-- Largest representable mathematical value of the type. -/
def IntType.maxVal (t : IntType) : ℤ :=
  if t.signed then 2 ^ (t.bits - 1) - 1 else 2 ^ t.bits - 1

/-- `v` is exactly representable in the integer type `t`. -/
def inRange (t : IntType) (v : ℤ) : Prop :=
  t.minVal ≤ v ∧ v ≤ t.maxVal

instance (t : IntType) (v : ℤ) : Decidable (inRange t v) := by
  unfold inRange; infer_instance

/-- `int8_t`. -/
def int8T : IntType := ⟨8, true⟩

/-- `IntegerT` (an alias of `int64_t`). -/
def int64T : IntType := ⟨64, true⟩

/-- `size_t` (64-bit unsigned). -/
def uint64T : IntType := ⟨64, false⟩

/-- The diagnostic that the failed checked addition prints. -/
def safeCastFailMsg : String := "Check failed: util_intops::SafeAdd"

/-- Modelled from the spec: `SafeCast<Src, Dest>(value)` is defined in
definitions.h, which is not under src/ (only its tests are). Per the spec it
converts an integer of type `Src` to type `Dest`, succeeding only if the
mathematical value is exactly representable in `Dest`; on failure it invokes
the Fatal Reporter with a diagnostic identifying a failed checked addition
and never returns. The checked addition of `value` to the zero of `Dest`
in a wide domain is modelled by the representability test `inRange`. -/
def SafeCast (_Src Dest : IntType) (v : ℤ) : Except String ℤ :=
  if inRange Dest v then Except.ok v else Except.error safeCastFailMsg

/-- Modelled from the spec: `PositiveOrDie(x)` for a signed-integer argument
(definitions.h is not under src/). Fails with "Found non-positive." if
`x <= 0`, returns `x` unchanged otherwise. -/
def PositiveOrDie (x : ℤ) : Except String ℤ :=
  if 0 < x then Except.ok x else Except.error "Found non-positive."

/-- Modelled from the spec: `PositiveOrDie(x)` for a floating-point argument,
with the same strict greater-than-zero comparison (doubles modelled as ℚ). -/
def PositiveOrDieDouble (x : ℚ) : Except String ℚ :=
  if 0 < x then Except.ok x else Except.error "Found non-positive."

/-- Modelled from the spec: `NotNullOrDie(ptr)` (definitions.h is not under
src/). Fails with "Found null." if `ptr` is null; otherwise returns the same
pointer unchanged. Pointers are `Option ℕ`, `none` being null. -/
def NotNullOrDie (p : Option ℕ) : Except String (Option ℕ) :=
  match p with
  | none => Except.error "Found null."
  | some a => Except.ok (some a)

/-- Modelled from the spec: `NonEmptyOrDie(container)` in the two reference
call shapes (mutable and const are observationally identical in a pure
embedding). Fails with "Found empty." on an empty container; otherwise
returns the same container unchanged. -/
def NonEmptyOrDie {α : Type} (c : List α) : Except String (List α) :=
  if c.length ≠ 0 then Except.ok c else Except.error "Found empty."

/-- Modelled from the spec: the pointer call shape of `NonEmptyOrDie`. The
pointee is read through the heap; the same address is returned and the heap
is untouched (no copy is made). -/
def NonEmptyOrDiePtr {α : Type} (heap : ℕ → List α) (a : ℕ) :
    Except String ℕ :=
  if (heap a).length ≠ 0 then Except.ok a else Except.error "Found empty."

/-- Modelled from the spec: `SizeLessThanOrDie(container, bound)` in the
reference call shapes. Fails with "Too large." if `size() >= bound`;
otherwise returns the same container unchanged. -/
def SizeLessThanOrDie {α : Type} (c : List α) (bound : ℕ) :
    Except String (List α) :=
  if c.length < bound then Except.ok c else Except.error "Too large."

/-- Modelled from the spec: the pointer call shape of `SizeLessThanOrDie`. -/
def SizeLessThanOrDiePtr {α : Type} (heap : ℕ → List α) (a : ℕ)
    (bound : ℕ) : Except String ℕ :=
  if (heap a).length < bound then Except.ok a else Except.error "Too large."

/-- Modelled from the spec: `CustomHashMix(first, second)` (definitions.h is
not under src/). The spec requires only a pure deterministic mix of two
same-width integers avoiding short cycles; we model it as a hash-combine
style transform on 32-bit words. -/
def CustomHashMix (first second : ℕ) : ℕ :=
  (second + 0x9e3779b9 + first * 64 + first / 4) % 4294967296

/-- The list of the first `n` iterates of
`current = CustomHashMix(current, seed)` starting from `current`. -/
def mixIterates : ℕ → ℕ → ℕ → List ℕ
  | 0, _, _ => []
  | n + 1, current, seed =>
      let next := CustomHashMix current seed
      next :: mixIterates n next seed

/-- Modelled from the spec: the `IntegerT` overload of `Pow2(exponent)`,
2 raised to the exponent by repeated doubling (util.h only declares it). -/
def Pow2 : ℕ → ℤ
  | 0 => 1
  | e + 1 => 2 * Pow2 e

/-- Modelled from the spec: the `size_t` overload of `Pow2(exponent)`. -/
def Pow2Size : ℕ → ℕ
  | 0 => 1
  | e + 1 => 2 * Pow2Size e

/-- `kVectorEqTolerance` from util.h (the double literal 0.000001,
modelled as the exact rational). -/
def kVectorEqTolerance : ℚ := 1 / 1000000

/-- The element-wise difference `observed - expected` of `VectorEq`. -/
def diffList (observed expected : List ℚ) : List ℚ :=
  List.zipWith (fun a b => a - b) observed expected

/-- The Euclidean norm of a vector of rationals, taken in ℝ as in
Eigen's `.norm()`. -/
noncomputable def euclidNorm (v : List ℚ) : ℝ :=
  Real.sqrt ((v.map fun x => ((x : ℝ)) ^ 2).sum)

/-- The sum of squares of the entries, kept in ℚ (used to evaluate the
norm comparison exactly). -/
def sqSum (v : List ℚ) : ℚ := (v.map fun x => x * x).sum

/-- The outcome of a `VectorEq` call: the boolean result (as a `Prop`,
since the norm comparison lives in ℝ) and the diagnostic written to
standard output, if any. -/
structure VectorEqOut where
  result : Prop
  diag : Option String

/-- `VectorEq<F>(observed, expected)` from util.h: if `expected.size() != F`
it prints a size diagnostic and returns false; otherwise it returns whether
the Euclidean norm of the element-wise difference is strictly below
`kVectorEqTolerance`. -/
def VectorEq (F : ℕ) (observed expected : List ℚ) : VectorEqOut :=
  if expected.length ≠ F then
    ⟨False, some ("Wrong size. observed size = " ++ toString F ++
      ", expected size = " ++ toString expected.length)⟩
  else
    ⟨euclidNorm (diffList observed expected) < ((kVectorEqTolerance : ℚ) : ℝ),
      none⟩

/-- `VectorEq` with the arguments threaded through explicitly: the source
takes both arguments by const reference and never assigns to them, so each
branch returns them exactly as received. Used to state the frame property. -/
def VectorEqFull (F : ℕ) (observed expected : List ℚ) :
    List ℚ × List ℚ × VectorEqOut :=
  if expected.length ≠ F then
    (observed, expected,
      ⟨False, some ("Wrong size. observed size = " ++ toString F ++
        ", expected size = " ++ toString expected.length)⟩)
  else
    (observed, expected,
      ⟨euclidNorm (diffList observed expected) < ((kVectorEqTolerance : ℚ) : ℝ),
        none⟩)

lemma Pow2_eq_two_pow (e : ℕ) : Pow2 e = 2 ^ e := by
  induction e with
  | zero => rfl
  | succ n ih => rw [Pow2, ih, pow_succ]; ring

lemma Pow2Size_eq_two_pow (e : ℕ) : Pow2Size e = 2 ^ e := by
  induction e with
  | zero => rfl
  | succ n ih => rw [Pow2Size, ih, pow_succ]; ring

lemma sqSum_cast (v : List ℚ) :
    ((sqSum v : ℚ) : ℝ) = (v.map fun x => ((x : ℝ)) ^ 2).sum := by
  unfold sqSum
  induction v with
  | nil => simp
  | cons a t ih => simp [ih]; ring

lemma euclidNorm_lt_tol_iff (v : List ℚ) :
    euclidNorm v < ((kVectorEqTolerance : ℚ) : ℝ) ↔
      sqSum v < kVectorEqTolerance * kVectorEqTolerance := by
  have htol : (0 : ℝ) < ((kVectorEqTolerance : ℚ) : ℝ) := by
    norm_num [kVectorEqTolerance]
  rw [euclidNorm, Real.sqrt_lt' htol, ← sqSum_cast]
  constructor
  · intro h
    have := h
    rw [sq] at this
    exact_mod_cast this
  · intro h
    rw [sq]
    exact_mod_cast h

/-- C1: SafeCast returns exactly the mathematical value when it is
representable in the destination type, and otherwise dies through the Fatal
Reporter with a checked-addition diagnostic; in particular a negative signed
value to unsigned, an unsigned value above the signed maximum, and the
64-bit extremes to 8-bit all die, while in-range values (including negative
values fitting a narrower signed destination) succeed exactly. -/
theorem SafeCast_exact_or_dies :
    (∀ S D : IntType, ∀ v : ℤ, inRange S v →
      (inRange D v → SafeCast S D v = Except.ok v) ∧
      (¬ inRange D v → SafeCast S D v = Except.error safeCastFailMsg)) ∧
    SafeCast int64T uint64T (-10) = Except.error safeCastFailMsg ∧
    SafeCast uint64T int64T (2 ^ 64 - 1) = Except.error safeCastFailMsg ∧
    SafeCast int64T int8T (2 ^ 63 - 1) = Except.error safeCastFailMsg ∧
    SafeCast int64T int8T (-(2 ^ 63)) = Except.error safeCastFailMsg ∧
    SafeCast int64T uint64T 42 = Except.ok 42 ∧
    SafeCast int64T int8T 42 = Except.ok 42 ∧
    SafeCast int64T int8T (-42) = Except.ok (-42) := by
  refine ⟨?_, by rw [SafeCast, if_neg (by decide)],
    by rw [SafeCast, if_neg (by decide)],
    by rw [SafeCast, if_neg (by decide)],
    by rw [SafeCast, if_neg (by decide)],
    by rw [SafeCast, if_pos (by decide)],
    by rw [SafeCast, if_pos (by decide)],
    by rw [SafeCast, if_pos (by decide)]⟩
  intro S D v _
  constructor
  · intro hD
    simp [SafeCast, if_pos hD]
  · intro hD
    simp [SafeCast, if_neg hD]

/-- Witness for C1 at a concrete in-range conversion. -/
theorem SafeCast_exact_or_dies_witness :
    SafeCast int8T int64T 5 = Except.ok 5 :=
  (SafeCast_exact_or_dies.1 int8T int64T 5 (by decide)).1 (by decide)

/-- C4: every guard, in every call shape, is total: it either returns its
input unchanged (the identical value, pointer address, or container) or
fails through the Fatal Reporter; there is no partial-success state. -/
theorem guards_total_identity :
    (∀ x : ℤ, PositiveOrDie x = Except.ok x ∨
      ∃ m, PositiveOrDie x = Except.error m) ∧
    (∀ x : ℚ, PositiveOrDieDouble x = Except.ok x ∨
      ∃ m, PositiveOrDieDouble x = Except.error m) ∧
    (∀ p : Option ℕ, NotNullOrDie p = Except.ok p ∨
      ∃ m, NotNullOrDie p = Except.error m) ∧
    (∀ (α : Type) (c : List α), NonEmptyOrDie c = Except.ok c ∨
      ∃ m, NonEmptyOrDie c = Except.error m) ∧
    (∀ (α : Type) (heap : ℕ → List α) (a : ℕ),
      NonEmptyOrDiePtr heap a = Except.ok a ∨
      ∃ m, NonEmptyOrDiePtr heap a = Except.error m) ∧
    (∀ (α : Type) (c : List α) (b : ℕ),
      SizeLessThanOrDie c b = Except.ok c ∨
      ∃ m, SizeLessThanOrDie c b = Except.error m) ∧
    (∀ (α : Type) (heap : ℕ → List α) (a b : ℕ),
      SizeLessThanOrDiePtr heap a b = Except.ok a ∨
      ∃ m, SizeLessThanOrDiePtr heap a b = Except.error m) := by
  refine ⟨fun x => ?_, fun x => ?_, fun p => ?_, fun α c => ?_,
    fun α heap a => ?_, fun α c b => ?_, fun α heap a b => ?_⟩
  · unfold PositiveOrDie; split
    · exact Or.inl rfl
    · exact Or.inr ⟨_, rfl⟩
  · unfold PositiveOrDieDouble; split
    · exact Or.inl rfl
    · exact Or.inr ⟨_, rfl⟩
  · cases p with
    | none => exact Or.inr ⟨_, rfl⟩
    | some a => exact Or.inl rfl
  · unfold NonEmptyOrDie; split
    · exact Or.inl rfl
    · exact Or.inr ⟨_, rfl⟩
  · unfold NonEmptyOrDiePtr; split
    · exact Or.inl rfl
    · exact Or.inr ⟨_, rfl⟩
  · unfold SizeLessThanOrDie; split
    · exact Or.inl rfl
    · exact Or.inr ⟨_, rfl⟩
  · unfold SizeLessThanOrDiePtr; split
    · exact Or.inl rfl
    · exact Or.inr ⟨_, rfl⟩

/-- C5: PositiveOrDie returns its argument exactly when it is strictly
positive, and for every non-positive argument (zero included) it dies with a
diagnostic containing "non-positive"; the integer and floating-point
overloads use the same strict greater-than-zero comparison. -/
theorem PositiveOrDie_spec :
    (∀ x : ℤ,
      (0 < x → PositiveOrDie x = Except.ok x) ∧
      (x ≤ 0 → ∃ m, PositiveOrDie x = Except.error m ∧
        ∃ s t, s ++ "non-positive".data ++ t = m.data)) ∧
    (∀ x : ℚ,
      (0 < x → PositiveOrDieDouble x = Except.ok x) ∧
      (x ≤ 0 → ∃ m, PositiveOrDieDouble x = Except.error m ∧
        ∃ s t, s ++ "non-positive".data ++ t = m.data)) := by
  constructor
  · intro x
    constructor
    · intro h
      simp [PositiveOrDie, if_pos h]
    · intro h
      refine ⟨"Found non-positive.", ?_, "Found ".data, ".".data, by decide⟩
      simp [PositiveOrDie, if_neg (not_lt.mpr h)]
  · intro x
    constructor
    · intro h
      simp [PositiveOrDieDouble, if_pos h]
    · intro h
      refine ⟨"Found non-positive.", ?_, "Found ".data, ".".data, by decide⟩
      simp [PositiveOrDieDouble, if_neg (not_lt.mpr h)]

/-- Witness for C5 at concrete positive and non-positive inputs. -/
theorem PositiveOrDie_spec_witness :
    PositiveOrDie 7 = Except.ok 7 ∧
    (∃ m, PositiveOrDie (-3) = Except.error m ∧
      ∃ s t, s ++ "non-positive".data ++ t = m.data) ∧
    PositiveOrDieDouble (1 / 2) = Except.ok (1 / 2) ∧
    (∃ m, PositiveOrDieDouble 0 = Except.error m ∧
      ∃ s t, s ++ "non-positive".data ++ t = m.data) :=
  ⟨(PositiveOrDie_spec.1 7).1 (by norm_num),
   (PositiveOrDie_spec.1 (-3)).2 (by norm_num),
   (PositiveOrDie_spec.2 (1 / 2)).1 (by norm_num),
   (PositiveOrDie_spec.2 0).2 (by norm_num)⟩

/-- C6: SizeLessThanOrDie returns the identical container (or the identical
address in the pointer shape) exactly when the size is strictly below the
bound, and dies with "Too large." whenever size >= bound, so a size equal
to the bound is a failure. -/
theorem SizeLessThanOrDie_spec :
    (∀ (α : Type) (c : List α) (b : ℕ),
      (c.length < b → SizeLessThanOrDie c b = Except.ok c) ∧
      (b ≤ c.length → SizeLessThanOrDie c b = Except.error "Too large.")) ∧
    (∀ (α : Type) (heap : ℕ → List α) (a b : ℕ),
      ((heap a).length < b → SizeLessThanOrDiePtr heap a b = Except.ok a) ∧
      (b ≤ (heap a).length →
        SizeLessThanOrDiePtr heap a b = Except.error "Too large.")) := by
  constructor
  · intro α c b
    constructor
    · intro h
      simp [SizeLessThanOrDie, if_pos h]
    · intro h
      simp [SizeLessThanOrDie, if_neg (not_lt.mpr h)]
  · intro α heap a b
    constructor
    · intro h
      simp [SizeLessThanOrDiePtr, if_pos h]
    · intro h
      simp [SizeLessThanOrDiePtr, if_neg (not_lt.mpr h)]

/-- Witness for C6 at concrete containers: size 2 below bound 3 succeeds,
size 5 at or above bound 3 dies, a size equal to its bound dies, and the
pointer shape succeeds on the same address. -/
theorem SizeLessThanOrDie_spec_witness :
    SizeLessThanOrDie ([0, 1] : List ℤ) 3 = Except.ok [0, 1] ∧
    SizeLessThanOrDie ([0, 1, 2, 3, 4] : List ℤ) 3 =
      Except.error "Too large." ∧
    SizeLessThanOrDie ([0, 1, 2] : List ℤ) 3 = Except.error "Too large." ∧
    SizeLessThanOrDiePtr (fun _ => ([0, 1] : List ℤ)) 4 3 = Except.ok 4 :=
  ⟨(SizeLessThanOrDie_spec.1 ℤ [0, 1] 3).1 (by decide),
   (SizeLessThanOrDie_spec.1 ℤ [0, 1, 2, 3, 4] 3).2 (by decide),
   (SizeLessThanOrDie_spec.1 ℤ [0, 1, 2] 3).2 (by decide),
   (SizeLessThanOrDie_spec.2 ℤ (fun _ => [0, 1]) 4 3).1 (by decide)⟩

set_option maxRecDepth 4000 in
/-- C7: iterating the State Mixer 100 times from state 20 with seed 20
produces 100 pairwise-distinct values (the mixer is a pure function, so
determinism holds by construction). -/
theorem CustomHashMix_no_short_cycle :
    (mixIterates 100 20 20).length = 100 ∧ (mixIterates 100 20 20).Nodup := by
  decide

/-- C8: both overloads of Pow2 return 2 raised to the exponent, under
standard integer exponentiation, for every exponent in the supported range
of the target width. -/
theorem Pow2_spec :
    (∀ e : ℕ, e ≤ 62 → Pow2 e = 2 ^ e) ∧
    (∀ e : ℕ, e ≤ 63 → Pow2Size e = 2 ^ e) :=
  ⟨fun e _ => Pow2_eq_two_pow e, fun e _ => Pow2Size_eq_two_pow e⟩

/-- Witness for C8 at exponent 10 in both overloads. -/
theorem Pow2_spec_witness :
    Pow2 10 = 2 ^ 10 ∧ Pow2Size 10 = 2 ^ 10 :=
  ⟨Pow2_spec.1 10 (by decide), Pow2_spec.2 10 (by decide)⟩

/-- C2: when the expected sequence has exactly the observed dimension,
VectorEq returns true iff the Euclidean norm of the element-wise difference
is strictly below the tolerance 1e-6 (equivalently, iff the sum of squared
differences is below the squared tolerance), so a difference whose norm
equals exactly 1e-6 yields false. -/
theorem VectorEq_norm_iff (F : ℕ) (observed expected : List ℚ)
    (_hobs : observed.length = F) (hexp : expected.length = F) :
    ((VectorEq F observed expected).result ↔
      euclidNorm (diffList observed expected) <
        ((kVectorEqTolerance : ℚ) : ℝ)) ∧
    ((VectorEq F observed expected).result ↔
      sqSum (diffList observed expected) <
        kVectorEqTolerance * kVectorEqTolerance) ∧
    (euclidNorm (diffList observed expected) = ((kVectorEqTolerance : ℚ) : ℝ) →
      ¬ (VectorEq F observed expected).result) := by
  have h' : ¬ expected.length ≠ F := by simp [hexp]
  have hres : (VectorEq F observed expected).result =
      (euclidNorm (diffList observed expected) <
        ((kVectorEqTolerance : ℚ) : ℝ)) := by
    rw [VectorEq, if_neg h']
  refine ⟨by rw [hres], ?_, ?_⟩
  · rw [hres]
    exact euclidNorm_lt_tol_iff _
  · intro heq
    rw [hres, heq]
    exact lt_irrefl _

/-- Witness for C2 at dimension 1 with observed = expected = [0]. -/
theorem VectorEq_norm_iff_witness :
    ((VectorEq 1 [0] [0]).result ↔
      euclidNorm (diffList [0] [0]) < ((kVectorEqTolerance : ℚ) : ℝ)) ∧
    ((VectorEq 1 [0] [0]).result ↔
      sqSum (diffList [0] [0]) < kVectorEqTolerance * kVectorEqTolerance) :=
  ⟨(VectorEq_norm_iff 1 [0] [0] rfl rfl).1,
   (VectorEq_norm_iff 1 [0] [0] rfl rfl).2.1⟩

/-- C3: when the expected sequence's length differs from the observed
dimension, VectorEq returns false together with the size diagnostic on
standard output, and its entire outcome is independent of the observed
vector's contents (no norm enters the result). -/
theorem VectorEq_size_mismatch (F : ℕ) (observed expected : List ℚ)
    (h : expected.length ≠ F) :
    ¬ (VectorEq F observed expected).result ∧
    (VectorEq F observed expected).diag =
      some ("Wrong size. observed size = " ++ toString F ++
        ", expected size = " ++ toString expected.length) ∧
    ∀ observed' : List ℚ,
      VectorEq F observed expected = VectorEq F observed' expected := by
  refine ⟨?_, ?_, ?_⟩
  · rw [VectorEq, if_pos h]
    exact not_false
  · rw [VectorEq, if_pos h]
  · intro observed'
    unfold VectorEq
    rw [if_pos h, if_pos h]

/-- Witness for C3: a 2-dimensional observed vector against a length-1
expected sequence returns false with the size diagnostic, with the same
outcome for a different observed vector. -/
theorem VectorEq_size_mismatch_witness :
    ¬ (VectorEq 2 [1, 2] [1]).result ∧
    (VectorEq 2 [1, 2] [1]).diag =
      some ("Wrong size. observed size = " ++ toString 2 ++
        ", expected size = " ++ toString 1) ∧
    VectorEq 2 [1, 2] [1] = VectorEq 2 [5, 6] [1] :=
  ⟨(VectorEq_size_mismatch 2 [1, 2] [1] (by decide)).1,
   (VectorEq_size_mismatch 2 [1, 2] [1] (by decide)).2.1,
   (VectorEq_size_mismatch 2 [1, 2] [1] (by decide)).2.2 [5, 6]⟩

/-- C9: the zero-dimension instantiation of VectorEq on an empty expected
sequence returns true with no diagnostic: the sizes match and the norm of
the empty difference is 0, strictly below the tolerance. -/
theorem VectorEq_zero_dim :
    (VectorEq 0 [] []).result ∧ (VectorEq 0 [] []).diag = none := by
  constructor
  · rw [VectorEq, if_neg (by simp)]
    show euclidNorm (diffList [] []) < _
    have hd : diffList [] [] = [] := rfl
    rw [hd, euclidNorm]
    norm_num [kVectorEqTolerance]
  · rw [VectorEq, if_neg (by simp)]

/-- C10: VectorEq modifies neither argument on either branch — the explicit
state-passing embedding returns both arguments exactly as received and the
same outcome as VectorEq — and the diagnostic write happens exactly on the
size-mismatch branch. -/
theorem VectorEq_frame :
    ∀ (F : ℕ) (observed expected : List ℚ),
      (VectorEqFull F observed expected).1 = observed ∧
      (VectorEqFull F observed expected).2.1 = expected ∧
      (VectorEqFull F observed expected).2.2 = VectorEq F observed expected ∧
      ((VectorEq F observed expected).diag = none ↔ expected.length = F) := by
  intro F observed expected
  by_cases h : expected.length = F <;>
    simp [VectorEqFull, VectorEq, h]
